import Mathlib

/-!
Verification of the multimodal retrieval / generation core
(`core/retrieval.py`, `core/generation.py`).

The embedding models Python values directly: documents carry a string
body and a metadata record of optional fields (`dict.get` returning
`None` is `Option.none`); similarity scores are rationals (Python
floats in the source, used only through `*` and ordering); the stable
ascending `list.sort(key=...)` is modelled by `List.insertionSort` on
the score projection (stable and sorted, hence extensionally the sort
the source performs); raised exceptions are `Except.error`.  Network
collaborators (vector stores, image fetch, vision model, language
model) are parameters: the store answers for one query are passed in
as data, and the generator counts every fetch and every language-model
invocation so that "never called" claims are statements about the
returned counters.
-/

/-- Metadata of a retrieved document.  Each field mirrors one metadata
key read by the source; `none` models an absent key. -/
structure Metadata where
  source_pdf_url : Option String := none
  pdf_url : Option String := none
  source_pdf_path : Option String := none
  pdf_storage_path : Option String := none
  pdf_original_filename : Option String := none
  document_bucket : Option String := none
  supabase_url : Option String := none
  chunk_page_number : Option Nat := none
  img_page_number : Option Nat := none
  table_page_number : Option Nat := none
  has_html : Bool := false
deriving Repr, DecidableEq

/-- A langchain `Document`: page content plus metadata. -/
structure Document where
  page_content : String
  metadata : Metadata := {}
deriving Repr, DecidableEq

/-- Python `a or b` on two optional strings: the first operand wins
unless it is falsy (`None` or the empty string). -/
def pyOr (a b : Option String) : Option String :=
  match a with
  | some s => if s = "" then b else some s
  | none => b

/-- The `{"text": ..., "images": ..., "tables": ...}` grouping used
throughout the source. -/
structure StoreResults where
  text : List Document := []
  images : List Document := []
  tables : List Document := []
deriving Repr, DecidableEq

/-! ### Hybrid ranking (`MultimodalRetriever.retrieve_hybrid_ranked`) -/

/-- One element of `all_results`: `(doc, weighted_score, type_)`. -/
abbrev RankedItem := Document × ℚ × String

/-- The weighted score component of a ranked tuple. -/
def scoreOf (x : RankedItem) : ℚ := x.2.1

/-- The type tag component of a ranked tuple. -/
def tagOf (x : RankedItem) : String := x.2.2

/-- The per-collection loop body: each `(doc, score)` pair becomes
`(doc, score * weight, tag)`. -/
def weightResults (rs : List (Document × ℚ)) (w : ℚ) (tag : String) :
    List RankedItem :=
  rs.map fun p => (p.1, p.2 * w, tag)

/-- `all_results` before sorting: text results, then image results,
then table results, each weighted and tagged. -/
def hybridMerged (textR imageR tableR : List (Document × ℚ))
    (tw iw tbw : ℚ) : List RankedItem :=
  weightResults textR tw "text" ++ weightResults imageR iw "image" ++
    weightResults tableR tbw "table"

/-- The comparison used by `all_results.sort(key=lambda x: x[1])`. -/
def scoreLE (a b : RankedItem) : Prop := scoreOf a ≤ scoreOf b

instance : DecidableRel scoreLE := fun a b =>
  inferInstanceAs (Decidable (scoreOf a ≤ scoreOf b))

instance : IsTotal RankedItem scoreLE := ⟨fun _ _ => le_total _ _⟩

instance : IsTrans RankedItem scoreLE := ⟨fun _ _ _ => le_trans⟩

/-- `all_results` after the in-place stable ascending sort by weighted
score. -/
def hybridSorted (textR imageR tableR : List (Document × ℚ))
    (tw iw tbw : ℚ) : List RankedItem :=
  List.insertionSort scoreLE (hybridMerged textR imageR tableR tw iw tbw)

/-- `retrieve_hybrid_ranked`: sort all weighted results ascending and
keep the first `k` (`all_results[:k]`). -/
def retrieve_hybrid_ranked (textR imageR tableR : List (Document × ℚ))
    (k : Nat) (tw iw tbw : ℚ) : List RankedItem :=
  (hybridSorted textR imageR tableR tw iw tbw).take k

/-- Default `text_weight` (`kwargs.get("text_weight", 0.5)`). -/
def default_text_weight : ℚ := 1/2

/-- Default `image_weight` (`kwargs.get("image_weight", 0.25)`). -/
def default_image_weight : ℚ := 1/4

/-- Default `table_weight` (`kwargs.get("table_weight", 0.25)`). -/
def default_table_weight : ℚ := 1/4

/-! ### `retrieve_multimodal` -/

/-- The answers the three vector collections give for the query of one
`retrieve_multimodal` call: one batch per retrieval path actually
taken.  Each field is the value the corresponding store call would
return (collection failures already degraded to `[]` inside the
helpers, which swallow per-collection exceptions). -/
structure SearchOutcome where
  allResults : StoreResults := {}
  mmrResults : StoreResults := {}
  scoredText : List (Document × ℚ) := []
  scoredImages : List (Document × ℚ) := []
  scoredTables : List (Document × ℚ) := []
  textOnly : List Document := []
  imageOnly : List Document := []
  tableOnly : List Document := []
deriving Repr, DecidableEq

/-- The dictionary `retrieve_multimodal` returns. -/
structure RetrievalOutput where
  query : String
  method : String
  results : StoreResults
  ranked_results : Option (List RankedItem) := none
  total_results : Nat
deriving Repr, DecidableEq

/-- `retrieve_multimodal`: dispatch on the method name; the final
`else` raises `ValueError(f"Unknown method: {method}")`. -/
def retrieve_multimodal (query : String) (method : String)
    (s : SearchOutcome) (k : Nat) (tw iw tbw : ℚ) :
    Except String RetrievalOutput :=
  if method = "all" then
    Except.ok
      { query := query, method := method, results := s.allResults,
        total_results := s.allResults.text.length +
          s.allResults.images.length + s.allResults.tables.length }
  else if method = "hybrid" then
    let ranked := retrieve_hybrid_ranked s.scoredText s.scoredImages
      s.scoredTables k tw iw tbw
    let results : StoreResults :=
      { text := ranked.filterMap fun x =>
          if tagOf x = "text" then some x.1 else none,
        images := ranked.filterMap fun x =>
          if tagOf x = "image" then some x.1 else none,
        tables := ranked.filterMap fun x =>
          if tagOf x = "table" then some x.1 else none }
    Except.ok
      { query := query, method := method, results := results,
        ranked_results := some ranked, total_results := ranked.length }
  else if method = "mmr" then
    Except.ok
      { query := query, method := method, results := s.mmrResults,
        total_results := s.mmrResults.text.length +
          s.mmrResults.images.length + s.mmrResults.tables.length }
  else if method = "text_only" then
    Except.ok
      { query := query, method := method,
        results := { text := s.textOnly, images := [], tables := [] },
        total_results := s.textOnly.length }
  else if method = "image_only" then
    Except.ok
      { query := query, method := method,
        results := { text := [], images := s.imageOnly, tables := [] },
        total_results := s.imageOnly.length }
  else if method = "table_only" then
    Except.ok
      { query := query, method := method,
        results := { text := [], images := [], tables := s.tableOnly },
        total_results := s.tableOnly.length }
  else
    Except.error ("Unknown method: " ++ method)

/-! ### `get_unique_source_pdfs` -/

/-- One value of the `pdfs` dictionary. -/
structure PdfEntry where
  url : String
  storage_path : String
  filename : String
  bucket : String
deriving Repr, DecidableEq

/-- The url a document contributes:
`metadata.get("source_pdf_url") or metadata.get("pdf_url")`, used only
when truthy. -/
def extractPdfUrl (d : Document) : Option String :=
  match pyOr d.metadata.source_pdf_url d.metadata.pdf_url with
  | some u => if u = "" then none else some u
  | none => none

/-- The entry stored under `pdfs[pdf_url]`. -/
def mkPdfEntry (u : String) (d : Document) : PdfEntry :=
  { url := u,
    storage_path :=
      (pyOr d.metadata.source_pdf_path d.metadata.pdf_storage_path).getD "",
    filename := d.metadata.pdf_original_filename.getD "",
    bucket := d.metadata.document_bucket.getD "" }

/-- The loop body: insert the document's entry unless its url is falsy
or already a key of the dictionary (python dicts preserve insertion
order, modelled by appending). -/
def addPdf (acc : List PdfEntry) (d : Document) : List PdfEntry :=
  match extractPdfUrl d with
  | some u => if acc.any (fun e => e.url = u) then acc else acc ++ [mkPdfEntry u d]
  | none => acc

/-- `get_unique_source_pdfs`: scan text, then images, then tables, in
item order, deduplicating by url. -/
def get_unique_source_pdfs (r : StoreResults) : List PdfEntry :=
  (r.text ++ r.images ++ r.tables).foldl addPdf []

/-- The truthy pdf urls contributed by the scan, in scan order, with
duplicates still present. -/
def scanUrls (r : StoreResults) : List String :=
  (r.text ++ r.images ++ r.tables).filterMap extractPdfUrl

/-- First-seen-order deduplication of a list, given an initial set of
already-seen keys. -/
def dedupFirst (seen : List String) : List String → List String
  | [] => []
  | u :: rest =>
    if u ∈ seen then dedupFirst seen rest
    else u :: dedupFirst (u :: seen) rest

/-! ### Python string helpers used by `core/generation.py` -/

/-- Python `str.strip()` (ASCII whitespace suffices for the strings the
source strips). -/
def pyStrip (s : String) : String :=
  String.mk
    (((s.data.dropWhile Char.isWhitespace).reverse.dropWhile
      Char.isWhitespace).reverse)

/-- Python `str.lower()` (ASCII lowering, as applied to the language
names `"Indonesian"` / `"English"`). -/
def pyLower (s : String) : String :=
  String.mk (s.data.map Char.toLower)

/-- One step of `text.replace("{", "{{").replace("}", "}}")`: braces
double, every other character is kept.  The two single-character
replacements commute with this per-character expansion. -/
def escapeChar (c : Char) : List Char :=
  if c = '\x7b' then ['\x7b', '\x7b']
  else if c = '\x7d' then ['\x7d', '\x7d']
  else [c]

/-- `MultimodalGenerator._escape_curly_braces`. -/
def escape_curly_braces (text : String) : String :=
  if text = "" then text
  else String.mk (List.flatten (text.data.map escapeChar))

/-! ### Vision analysis (`_fetch_image_as_base64`, `_analyze_image_with_vision`) -/

/-- The network collaborators of the vision path.  `fetch` models
`_fetch_image_as_base64` (`none` = any fetch failure, already caught
inside that helper); `visionLLM` models `self.vision_llm.invoke`
applied to the analysis prompt and the fetched base64 payload
(`Except.error` = a raised exception). -/
structure VisionOracle where
  fetch : String → Option String
  visionLLM : String → String → Except String String

/-- The language-sensitive vision prompt (interior indentation of the
source's triple-quoted literals elided). -/
def vision_prompt (query language : String) : String :=
  if pyLower language = "indonesian" then
    "Analisis gambar ini dalam konteks pertanyaan: \"" ++ query ++
      "\"\n\nJelaskan secara detail:\n1. Apa yang ditampilkan dalam gambar (chart, diagram, foto, dll)\n2. Data atau informasi penting yang relevan dengan pertanyaan\n3. Insight atau kesimpulan yang bisa diambil\n\nBerikan analisis yang komprehensif dan fokus pada informasi yang relevan dengan pertanyaan."
  else
    "Analyze this image in the context of the question: \"" ++ query ++
      "\"\n\nExplain in detail:\n1. What is shown in the image (chart, diagram, photo, etc.)\n2. Important data or information relevant to the question\n3. Insights or conclusions that can be drawn\n\nProvide comprehensive analysis focused on information relevant to the question."

/-- `_analyze_image_with_vision`: fetch the image, then call the
vision model; every failure is caught and becomes `none`.  The second
component counts the `_fetch_image_as_base64` invocations this call
performs (always exactly one). -/
def analyze_image_with_vision (o : VisionOracle)
    (image_url query language : String) : Option String × Nat :=
  match o.fetch image_url with
  | none => (none, 1)
  | some b64 =>
    match o.visionLLM (vision_prompt query language) b64 with
    | Except.ok analysis => (some analysis, 1)
    | Except.error _ => (none, 1)

/-! ### Context formatting (`_format_multimodal_context`) -/

/-- `GenerationConfig` of the source. -/
structure GenerationConfig where
  model : String
  temperature : ℚ := 7/10
  max_tokens : Nat := 2000
  use_vision : Bool := true
  vision_model : String
deriving Repr, DecidableEq

/-- Rendering of a metadata page value,
`doc.metadata.get("..._page_number", "N/A")` inside an f-string. -/
def pageStr : Option Nat → String
  | some n => toString n
  | none => "N/A"

/-- 1-indexed `enumerate(..., 1)` mapping. -/
def enumFrom {α β : Type} (f : Nat → α → β) : Nat → List α → List β
  | _, [] => []
  | i, a :: l => f i a :: enumFrom f (i + 1) l

/-- The context part appended for the i-th text chunk. -/
def textPart (i : Nat) (doc : Document) : String :=
  "[TEXT-" ++ toString i ++ "] (Page " ++
    pageStr doc.metadata.chunk_page_number ++ ")\n" ++
    escape_curly_braces doc.page_content ++ "\n"

/-- The context part appended for the i-th table. -/
def tablePart (i : Nat) (doc : Document) : String :=
  "[TABLE-" ++ toString i ++ "] (Page " ++
    pageStr doc.metadata.table_page_number ++ ", Format: " ++
    (if doc.metadata.has_html then "HTML" else "Plain Text") ++ ")\n" ++
    escape_curly_braces doc.page_content ++ "\n"

/-- The header part appended for the i-th image. -/
def imageHeader (i : Nat) (doc : Document) : String :=
  "[IMAGE-" ++ toString i ++ "] (Page " ++
    pageStr doc.metadata.img_page_number ++ ")\n"

/-- The parts appended for one image, and the number of image fetches
performed for it.  The vision path runs only when the call-level flag,
a truthy url, and the configuration flag all hold. -/
def imagePartsOne (cfg : GenerationConfig) (o : VisionOracle)
    (query language : String) (use_vision : Bool) (i : Nat)
    (doc : Document) : List String × Nat :=
  if use_vision ∧ doc.metadata.supabase_url.getD "" ≠ "" ∧ cfg.use_vision then
    match analyze_image_with_vision o (doc.metadata.supabase_url.getD "")
        query language with
    | (some analysis, n) =>
      ([imageHeader i doc,
        "Visual Analysis (Real-time): " ++ analysis ++ "\n",
        "URL: " ++ doc.metadata.supabase_url.getD "" ++ "\n"], n)
    | (none, n) =>
      ([imageHeader i doc,
        "Visual Analysis (Stored): " ++
          escape_curly_braces doc.page_content ++ "\n",
        "URL: " ++ doc.metadata.supabase_url.getD "" ++ "\n"], n)
  else
    ([imageHeader i doc,
      "Visual Analysis: " ++ escape_curly_braces doc.page_content ++ "\n",
      "URL: " ++ doc.metadata.supabase_url.getD "" ++ "\n"], 0)

/-- The image loop of `_format_multimodal_context` (1-indexed), with
its total fetch count. -/
def imageParts (cfg : GenerationConfig) (o : VisionOracle)
    (query language : String) (use_vision : Bool) :
    Nat → List Document → List String × Nat
  | _, [] => ([], 0)
  | i, d :: ds =>
    let p := imagePartsOne cfg o query language use_vision i d
    let rest := imageParts cfg o query language use_vision (i + 1) ds
    (p.1 ++ rest.1, p.2 + rest.2)

/-- `context_parts` as assembled by `_format_multimodal_context`,
paired with the number of image fetches performed. -/
def format_context_parts (cfg : GenerationConfig) (o : VisionOracle)
    (results : StoreResults) (query : String) (use_vision : Bool)
    (language : String) : List String × Nat :=
  let textSection : List String :=
    if results.text.isEmpty then []
    else "=== TEXT CONTENT ===\n" :: enumFrom textPart 1 results.text
  let imageSection : List String × Nat :=
    if results.images.isEmpty then ([], 0)
    else
      let p := imageParts cfg o query language use_vision 1 results.images
      ("\n=== IMAGES ===\n" :: p.1, p.2)
  let tableSection : List String :=
    if results.tables.isEmpty then []
    else "\n=== TABLES ===\n" :: enumFrom tablePart 1 results.tables
  (textSection ++ imageSection.1 ++ tableSection, imageSection.2)

/-- `_format_multimodal_context`: `"\n".join(context_parts)`, paired
with the number of image fetches performed. -/
def format_multimodal_context (cfg : GenerationConfig) (o : VisionOracle)
    (results : StoreResults) (query : String) (use_vision : Bool)
    (language : String) : String × Nat :=
  let p := format_context_parts cfg o results query use_vision language
  (String.intercalate "\n" p.1, p.2)

/-! ### Answer generation (`generate_simple` / `generate_with_citations` /
`generate_structured` / `generate_answer`) -/

/-- The language-model invocation `(prompt | self.llm | StrOutputParser()).invoke(...)`:
system prompt, formatted context, escaped query; `Except.error` models
a raised exception with its message. -/
abbrev LLM := String → String → String → Except String String

/-- `sources_count` of a successful `generate_simple` result. -/
structure SourcesCount where
  text : Nat
  images : Nat
  tables : Nat
deriving Repr, DecidableEq

/-- One element of the extracted `sources` list (tagged by the
`"type"` field of the source dictionary). -/
inductive Source where
  | text (id : String) (content_preview : String) (page : String)
  | image (id : String) (descr : String) (url : String) (page : String)
      (analyzed_with_vision : Bool)
  | table (id : String) (content_preview : String) (page : String)
      (has_html : Bool)
deriving Repr, DecidableEq

/-- The dictionary every generation mode returns (`none` models an
absent key). -/
structure GenResult where
  answer : String
  has_context : Bool
  error : Option String := none
  model : Option String := none
  vision_model : Option String := none
  language : Option String := none
  sources_count : Option SourcesCount := none
  sources : Option (List Source) := none
deriving Repr, DecidableEq

/-- Observed collaborator invocations of one generation call. -/
structure CallCounts where
  llm : Nat := 0
  fetch : Nat := 0
deriving Repr, DecidableEq

/-- `_extract_sources` (and `_extract_sources_with_ids`, which just
delegates to it): text sources first, then images, then tables, each
1-indexed. -/
def extract_sources (cfg : GenerationConfig) (results : StoreResults) :
    List Source :=
  enumFrom (fun i doc => Source.text ("TEXT-" ++ toString i)
      (doc.page_content.take 200 ++ "...")
      (pageStr doc.metadata.chunk_page_number)) 1 results.text ++
  enumFrom (fun i doc => Source.image ("IMAGE-" ++ toString i)
      doc.page_content (doc.metadata.supabase_url.getD "")
      (pageStr doc.metadata.img_page_number) cfg.use_vision) 1
      results.images ++
  enumFrom (fun i doc => Source.table ("TABLE-" ++ toString i)
      (doc.page_content.take 300 ++ "...")
      (pageStr doc.metadata.table_page_number)
      doc.metadata.has_html) 1 results.tables

/-- `generate_simple`'s system prompt (language-dependent; prompt text
condensed to its lines, interior indentation elided). -/
def simple_system_prompt (language : String) : String :=
  if pyLower language = "indonesian" then
    "Kamu adalah AI assistant yang ahli dalam menganalisis dokumen multimodal."
  else
    "You are an AI assistant expert in analyzing multimodal documents."

/-- `generate_with_citations`'s system prompt (condensed likewise). -/
def citations_system_prompt (language : String) : String :=
  if pyLower language = "indonesian" then
    "Kamu adalah AI assistant yang memberikan jawaban dengan citations yang tepat."
  else
    "You are an AI assistant that provides answers with accurate citations."

/-- `generate_structured`'s system prompt (condensed likewise). -/
def structured_system_prompt (language : String) : String :=
  if pyLower language = "indonesian" then
    "Kamu adalah AI assistant yang memberikan jawaban terstruktur."
  else
    "You are an AI assistant providing structured answers."

/-- `generate_simple`. -/
def generate_simple (cfg : GenerationConfig) (o : VisionOracle) (llm : LLM)
    (query : String) (retrieval_results : StoreResults)
    (include_sources : Bool) (language : String) : GenResult × CallCounts :=
  let fc := format_multimodal_context cfg o retrieval_results query
    cfg.use_vision language
  if pyStrip fc.1 = "" then
    ({ answer := "Maaf, saya tidak menemukan informasi yang relevan untuk menjawab pertanyaan Anda.",
       has_context := false, sources := some [] },
     { llm := 0, fetch := fc.2 })
  else
    match llm (simple_system_prompt language) fc.1 (escape_curly_braces query) with
    | Except.error e =>
      ({ answer := "Maaf, terjadi error saat generate jawaban: " ++ e,
         has_context := true, error := some e },
       { llm := 1, fetch := fc.2 })
    | Except.ok answer =>
      let base : GenResult :=
        { answer := answer, has_context := true, model := some cfg.model,
          vision_model :=
            if cfg.use_vision then some cfg.vision_model else none,
          language := some language,
          sources_count := some
            { text := retrieval_results.text.length,
              images := retrieval_results.images.length,
              tables := retrieval_results.tables.length } }
      (if include_sources then
        { base with sources := some (extract_sources cfg retrieval_results) }
       else base,
       { llm := 1, fetch := fc.2 })

/-- `generate_with_citations`. -/
def generate_with_citations (cfg : GenerationConfig) (o : VisionOracle)
    (llm : LLM) (query : String) (retrieval_results : StoreResults)
    (language : String) : GenResult × CallCounts :=
  let fc := format_multimodal_context cfg o retrieval_results query
    cfg.use_vision language
  if pyStrip fc.1 = "" then
    ({ answer := "Maaf, saya tidak menemukan informasi yang relevan.",
       has_context := false, sources := some [] },
     { llm := 0, fetch := fc.2 })
  else
    match llm (citations_system_prompt language) fc.1
        (escape_curly_braces query) with
    | Except.error e =>
      ({ answer := "Error: " ++ e, has_context := true, error := some e },
       { llm := 1, fetch := fc.2 })
    | Except.ok answer =>
      ({ answer := answer, has_context := true, model := some cfg.model,
         vision_model :=
           if cfg.use_vision then some cfg.vision_model else none,
         language := some language,
         sources := some (extract_sources cfg retrieval_results) },
       { llm := 1, fetch := fc.2 })

/-- `generate_structured`. -/
def generate_structured (cfg : GenerationConfig) (o : VisionOracle)
    (llm : LLM) (query : String) (retrieval_results : StoreResults)
    (language : String) : GenResult × CallCounts :=
  let fc := format_multimodal_context cfg o retrieval_results query
    cfg.use_vision language
  if pyStrip fc.1 = "" then
    ({ answer := "Tidak ada informasi yang ditemukan.",
       has_context := false },
     { llm := 0, fetch := fc.2 })
  else
    match llm (structured_system_prompt language) fc.1
        (escape_curly_braces query) with
    | Except.error e =>
      ({ answer := "Error: " ++ e, has_context := true, error := some e },
       { llm := 1, fetch := fc.2 })
    | Except.ok answer =>
      ({ answer := answer, has_context := true, model := some cfg.model,
         vision_model :=
           if cfg.use_vision then some cfg.vision_model else none,
         language := some language,
         sources := some (extract_sources cfg retrieval_results) },
       { llm := 1, fetch := fc.2 })

/-- The `try` body of `generate_answer`: dispatch on the method name;
the final `else` raises `ValueError(f"Unknown method: {method}")`. -/
def generate_answer_dispatch (cfg : GenerationConfig) (o : VisionOracle)
    (llm : LLM) (query : String) (retrieval_results : StoreResults)
    (method : String) (language : String) (include_sources : Bool) :
    Except String (GenResult × CallCounts) :=
  if method = "simple" then
    Except.ok (generate_simple cfg o llm query retrieval_results
      include_sources language)
  else if method = "citations" then
    Except.ok (generate_with_citations cfg o llm query retrieval_results
      language)
  else if method = "structured" then
    Except.ok (generate_structured cfg o llm query retrieval_results
      language)
  else
    Except.error ("Unknown method: " ++ method)

/-- `generate_answer`: the blanket `except Exception` around the
dispatch converts any raised error into a returned dictionary. -/
def generate_answer (cfg : GenerationConfig) (o : VisionOracle) (llm : LLM)
    (query : String) (retrieval_results : StoreResults) (method : String)
    (language : String) (include_sources : Bool) : GenResult × CallCounts :=
  match generate_answer_dispatch cfg o llm query retrieval_results method
      language include_sources with
  | Except.ok r => r
  | Except.error e =>
    ({ answer := "Maaf, terjadi error: " ++ e, has_context := false,
       error := some e },
     { llm := 0, fetch := 0 })

/-! ### Sample data used by the witnesses -/

/-- A sample text document. -/
def docT : Document := { page_content := "t" }

/-- A sample image document. -/
def docI : Document := { page_content := "i" }

/-! ### Lemmas about the hybrid ranking -/

/-- The sorted merged sequence is pairwise ascending in weighted
score. -/
lemma hybridSorted_pairwise (textR imageR tableR : List (Document × ℚ))
    (tw iw tbw : ℚ) :
    (hybridSorted textR imageR tableR tw iw tbw).Pairwise scoreLE :=
  List.sorted_insertionSort scoreLE _

/-- Every tuple of the truncated ranking comes from the weighted
merged list. -/
lemma mem_hybrid_ranked_mem_merged
    {textR imageR tableR : List (Document × ℚ)} {k : Nat} {tw iw tbw : ℚ}
    {x : RankedItem}
    (hx : x ∈ retrieve_hybrid_ranked textR imageR tableR k tw iw tbw) :
    x ∈ hybridMerged textR imageR tableR tw iw tbw := by
  have h1 : x ∈ hybridSorted textR imageR tableR tw iw tbw :=
    (List.take_sublist k _).mem hx
  exact (List.perm_insertionSort scoreLE _).mem_iff.1 h1

/-- Every tuple of the truncated ranking carries one of the three type
tags. -/
lemma mem_hybrid_ranked_tag
    {textR imageR tableR : List (Document × ℚ)} {k : Nat} {tw iw tbw : ℚ}
    {x : RankedItem}
    (hx : x ∈ retrieve_hybrid_ranked textR imageR tableR k tw iw tbw) :
    tagOf x = "text" ∨ tagOf x = "image" ∨ tagOf x = "table" := by
  have h2 := mem_hybrid_ranked_mem_merged hx
  simp only [hybridMerged, weightResults, List.mem_append, List.mem_map] at h2
  rcases h2 with (⟨p, _, hp⟩ | ⟨p, _, hp⟩) | ⟨p, _, hp⟩ <;>
    subst hp <;> simp [tagOf]

/-- Claim C1: in the hybrid strategy every scored item is weighted by
its per-type weight and merged (membership in `hybridMerged`), the
merged sequence is truncated to at most `k` items, and the ordering is
monotone: whenever the item at position `i` has a strictly smaller
weighted score than the item at position `j`, position `i` precedes
position `j`. -/
theorem hybrid_ranked_weighted_order
    (textR imageR tableR : List (Document × ℚ)) (k : Nat) (tw iw tbw : ℚ)
    (i j : Nat)
    (hi : i < (retrieve_hybrid_ranked textR imageR tableR k tw iw tbw).length)
    (hj : j < (retrieve_hybrid_ranked textR imageR tableR k tw iw tbw).length)
    (hlt : scoreOf ((retrieve_hybrid_ranked textR imageR tableR k tw iw tbw).get ⟨i, hi⟩) <
      scoreOf ((retrieve_hybrid_ranked textR imageR tableR k tw iw tbw).get ⟨j, hj⟩)) :
    i < j ∧
      (retrieve_hybrid_ranked textR imageR tableR k tw iw tbw).length ≤ k ∧
      ∀ x ∈ retrieve_hybrid_ranked textR imageR tableR k tw iw tbw,
        x ∈ hybridMerged textR imageR tableR tw iw tbw := by
  refine ⟨?_, ?_, fun x hx => mem_hybrid_ranked_mem_merged hx⟩
  · by_contra hij
    push_neg at hij
    have hpw : (retrieve_hybrid_ranked textR imageR tableR k tw iw tbw).Pairwise scoreLE :=
      (hybridSorted_pairwise textR imageR tableR tw iw tbw).sublist
        (List.take_sublist k _)
    rcases lt_or_eq_of_le hij with hlt2 | heq2
    · have := (List.pairwise_iff_get.1 hpw) ⟨j, hj⟩ ⟨i, hi⟩ hlt2
      exact absurd hlt (not_lt.2 this)
    · subst heq2
      exact absurd hlt (lt_irrefl _)
  · simp [retrieve_hybrid_ranked]

/-- Witness for C1: two scored items (text distance 2, image distance
8) under the default weights rank text (weighted 1) before image
(weighted 2). -/
theorem hybrid_ranked_weighted_order_witness :
    (0:Nat) < 1 ∧
      (retrieve_hybrid_ranked [(docT, 2)] [(docI, 8)] [] 2
        default_text_weight default_image_weight default_table_weight).length ≤ 2 := by
  have hi : 0 < (retrieve_hybrid_ranked [(docT, 2)] [(docI, 8)] [] 2
      default_text_weight default_image_weight default_table_weight).length := by
    norm_num [retrieve_hybrid_ranked, hybridSorted, hybridMerged, weightResults,
      List.insertionSort, List.orderedInsert, scoreLE, scoreOf,
      default_text_weight, default_image_weight, default_table_weight]
  have hj : 1 < (retrieve_hybrid_ranked [(docT, 2)] [(docI, 8)] [] 2
      default_text_weight default_image_weight default_table_weight).length := by
    norm_num [retrieve_hybrid_ranked, hybridSorted, hybridMerged, weightResults,
      List.insertionSort, List.orderedInsert, scoreLE, scoreOf,
      default_text_weight, default_image_weight, default_table_weight]
  have hlt : scoreOf ((retrieve_hybrid_ranked [(docT, 2)] [(docI, 8)] [] 2
        default_text_weight default_image_weight default_table_weight).get ⟨0, hi⟩) <
      scoreOf ((retrieve_hybrid_ranked [(docT, 2)] [(docI, 8)] [] 2
        default_text_weight default_image_weight default_table_weight).get ⟨1, hj⟩) := by
    norm_num [retrieve_hybrid_ranked, hybridSorted, hybridMerged, weightResults,
      List.insertionSort, List.orderedInsert, scoreLE, scoreOf,
      default_text_weight, default_image_weight, default_table_weight]
  have h := hybrid_ranked_weighted_order [(docT, 2)] [(docI, 8)] [] 2
    default_text_weight default_image_weight default_table_weight 0 1 hi hj hlt
  exact ⟨h.1, h.2.1⟩

/-- Claim C8: the sort of the merged weighted sequence is stable —
any two items appearing in the concatenated text→image→table order
with equal weighted scores keep that relative order in the sorted
merged sequence. -/
theorem hybrid_equal_scores_stable
    (textR imageR tableR : List (Document × ℚ)) (tw iw tbw : ℚ)
    (a b : RankedItem)
    (hsub : [a, b].Sublist (hybridMerged textR imageR tableR tw iw tbw))
    (heq : scoreOf a = scoreOf b) :
    [a, b].Sublist (hybridSorted textR imageR tableR tw iw tbw) := by
  unfold hybridSorted
  exact List.pair_sublist_insertionSort (le_of_eq heq) hsub

/-- Witness for C8: a text item and an image item with equal weighted
scores stay in text-before-image order after sorting. -/
theorem hybrid_equal_scores_stable_witness :
    [((docT, 2, "text") : RankedItem), (docI, 2, "image")].Sublist
      (hybridSorted [(docT, 2)] [(docI, 2)] [] 1 1 1) := by
  have hsub : [((docT, 2, "text") : RankedItem), (docI, 2, "image")].Sublist
      (hybridMerged [(docT, 2)] [(docI, 2)] [] 1 1 1) := by
    have hm : hybridMerged [(docT, 2)] [(docI, 2)] [] 1 1 1 =
        [(docT, 2, "text"), (docI, 2, "image")] := by
      norm_num [hybridMerged, weightResults]
    rw [hm]
  have heq : scoreOf ((docT, 2, "text") : RankedItem) =
      scoreOf ((docI, 2, "image") : RankedItem) := rfl
  exact hybrid_equal_scores_stable [(docT, 2)] [(docI, 2)] [] 1 1 1 _ _ hsub heq

/-- Claim C4: whenever `retrieve_multimodal` returns, `total_results`
is the sum of the three group lengths for every method other than
`"hybrid"`, and for `"hybrid"` it is the length of the ranked merged
sequence, which is at most `k`. -/
theorem total_results_counts (query method : String) (s : SearchOutcome)
    (k : Nat) (tw iw tbw : ℚ) (out : RetrievalOutput)
    (h : retrieve_multimodal query method s k tw iw tbw = Except.ok out) :
    (method ≠ "hybrid" →
      out.total_results = out.results.text.length +
        out.results.images.length + out.results.tables.length) ∧
    (method = "hybrid" →
      out.ranked_results = some (retrieve_hybrid_ranked s.scoredText
        s.scoredImages s.scoredTables k tw iw tbw) ∧
      out.total_results = (retrieve_hybrid_ranked s.scoredText
        s.scoredImages s.scoredTables k tw iw tbw).length ∧
      out.total_results ≤ k) := by
  unfold retrieve_multimodal at h
  split_ifs at h with h1 h2 h3 h4 h5 h6 <;>
    (try cases h) <;>
    constructor
  · intro _; rfl
  · intro hc; exact absurd (h1 ▸ hc) (by decide)
  · intro hne; exact absurd h2 hne
  · intro _
    refine ⟨rfl, rfl, ?_⟩
    simp [retrieve_hybrid_ranked]
  · intro _; rfl
  · intro hc; exact absurd (h3 ▸ hc) (by decide)
  · intro _; simp
  · intro hc; exact absurd (h4 ▸ hc) (by decide)
  · intro _; simp
  · intro hc; exact absurd (h5 ▸ hc) (by decide)
  · intro _; simp
  · intro hc; exact absurd (h6 ▸ hc) (by decide)

/-- Search outcome used by the C4 witness. -/
def sampleAll : SearchOutcome :=
  { allResults := { text := [docT], images := [docI], tables := [] } }

/-- Output of `retrieve_multimodal` on `sampleAll` with method
`"all"`. -/
def outAll : RetrievalOutput :=
  { query := "q", method := "all",
    results := { text := [docT], images := [docI], tables := [] },
    total_results := 2 }

/-- Witness for C4: a concrete `"all"` retrieval whose
`total_results` is the group-length sum. -/
theorem total_results_counts_witness :
    ("all" : String) ≠ "hybrid" ∧
      outAll.total_results = outAll.results.text.length +
        outAll.results.images.length + outAll.results.tables.length :=
  ⟨by decide,
    (total_results_counts "q" "all" sampleAll 5 1 1 1 outAll rfl).1 (by decide)⟩

/-- Splitting a list of tagged tuples into the three tag groups loses
nothing when every tuple carries one of the three tags. -/
lemma three_tag_partition_length (l : List RankedItem)
    (h : ∀ x ∈ l, tagOf x = "text" ∨ tagOf x = "image" ∨ tagOf x = "table") :
    (l.filterMap fun x => if tagOf x = "text" then some x.1 else none).length +
      (l.filterMap fun x => if tagOf x = "image" then some x.1 else none).length +
      (l.filterMap fun x => if tagOf x = "table" then some x.1 else none).length =
      l.length := by
  induction l with
  | nil => simp
  | cons x xs ih =>
    have hx := h x (List.mem_cons_self _ _)
    have hxs := ih fun y hy => h y (List.mem_cons_of_mem _ hy)
    rcases hx with h1 | h1 | h1 <;>
      simp [List.filterMap_cons, h1] <;> omega

/-- Claim C10: under the hybrid strategy the three returned groups
are exactly the per-tag projections of the ranked merged sequence (in
ranked order), and their lengths sum to `total_results`. -/
theorem hybrid_groups_partition (query : String) (s : SearchOutcome)
    (k : Nat) (tw iw tbw : ℚ) (out : RetrievalOutput)
    (h : retrieve_multimodal query "hybrid" s k tw iw tbw = Except.ok out) :
    ∃ r, out.ranked_results = some r ∧
      out.results.text = (r.filterMap fun x =>
        if tagOf x = "text" then some x.1 else none) ∧
      out.results.images = (r.filterMap fun x =>
        if tagOf x = "image" then some x.1 else none) ∧
      out.results.tables = (r.filterMap fun x =>
        if tagOf x = "table" then some x.1 else none) ∧
      out.results.text.length + out.results.images.length +
        out.results.tables.length = out.total_results := by
  unfold retrieve_multimodal at h
  norm_num at h
  cases h
  refine ⟨retrieve_hybrid_ranked s.scoredText s.scoredImages s.scoredTables
    k tw iw tbw, rfl, rfl, rfl, rfl, ?_⟩
  exact three_tag_partition_length _ fun x hx => mem_hybrid_ranked_tag hx

/-- Witness for C10 (the theorem's hypothesis at a concrete input):
instantiated on empty scored results, the groups partition the empty
ranked sequence. -/
theorem hybrid_groups_partition_witness :
    ∃ r, (RetrievalOutput.ranked_results
        { query := "q", method := "hybrid",
          results := { text := [], images := [], tables := [] },
          ranked_results := some [], total_results := 0 }) = some r ∧
      (StoreResults.text { text := [], images := [], tables := [] }) =
        (r.filterMap fun x => if tagOf x = "text" then some x.1 else none) ∧
      (StoreResults.images { text := [], images := [], tables := [] }) =
        (r.filterMap fun x => if tagOf x = "image" then some x.1 else none) ∧
      (StoreResults.tables { text := [], images := [], tables := [] }) =
        (r.filterMap fun x => if tagOf x = "table" then some x.1 else none) ∧
      0 + 0 + 0 = 0 := by
  have h := hybrid_groups_partition "q" {} 3 1 1 1
    { query := "q", method := "hybrid",
      results := { text := [], images := [], tables := [] },
      ranked_results := some [], total_results := 0 } rfl
  obtain ⟨r, h1, h2, h3, h4, _⟩ := h
  exact ⟨r, h1, h2, h3, h4, rfl⟩

/-! ### Lemmas about `get_unique_source_pdfs` -/

/-- `dedupFirst` only consults membership in the seen set. -/
lemma dedupFirst_congr (l : List String) : ∀ s₁ s₂ : List String,
    (∀ x, x ∈ s₁ ↔ x ∈ s₂) → dedupFirst s₁ l = dedupFirst s₂ l := by
  induction l with
  | nil => intro s₁ s₂ _; rfl
  | cons u rest ih =>
    intro s₁ s₂ h
    by_cases hu : u ∈ s₁
    · simp only [dedupFirst, if_pos hu, if_pos ((h u).1 hu)]
      exact ih s₁ s₂ h
    · simp only [dedupFirst, if_neg hu, if_neg fun hx => hu ((h u).2 hx)]
      have h' : ∀ x, x ∈ u :: s₁ ↔ x ∈ u :: s₂ := by
        intro x; simp [List.mem_cons, h x]
      rw [ih (u :: s₁) (u :: s₂) h']

/-- Membership in a first-seen deduplication. -/
lemma mem_dedupFirst (l : List String) : ∀ (seen : List String) (x : String),
    x ∈ dedupFirst seen l ↔ x ∈ l ∧ x ∉ seen := by
  induction l with
  | nil => intro seen x; simp [dedupFirst]
  | cons u rest ih =>
    intro seen x
    by_cases hu : u ∈ seen
    · simp only [dedupFirst, if_pos hu, ih, List.mem_cons]
      constructor
      · exact fun h => ⟨Or.inr h.1, h.2⟩
      · rintro ⟨rfl | hx, hs⟩
        · exact absurd hu hs
        · exact ⟨hx, hs⟩
    · simp only [dedupFirst, if_neg hu, List.mem_cons, ih]
      constructor
      · rintro (rfl | ⟨hx, hs⟩)
        · exact ⟨Or.inl rfl, hu⟩
        · exact ⟨Or.inr hx, fun h2 => hs (Or.inr h2)⟩
      · rintro ⟨rfl | hx, hs⟩
        · exact Or.inl rfl
        · by_cases hxu : x = u
          · exact Or.inl hxu
          · exact Or.inr ⟨hx, fun h2 => h2.elim hxu hs⟩

/-- A first-seen deduplication has no duplicates. -/
lemma nodup_dedupFirst (l : List String) : ∀ seen : List String,
    (dedupFirst seen l).Nodup := by
  induction l with
  | nil => intro seen; simp [dedupFirst]
  | cons u rest ih =>
    intro seen
    by_cases hu : u ∈ seen
    · simp only [dedupFirst, if_pos hu]; exact ih seen
    · simp only [dedupFirst, if_neg hu]
      refine List.nodup_cons.2 ⟨?_, ih (u :: seen)⟩
      intro hmem
      exact ((mem_dedupFirst rest (u :: seen) u).1 hmem).2 (List.mem_cons_self _ _)

/-- A first-seen deduplication counts the distinct elements. -/
lemma length_dedupFirst (l : List String) :
    (dedupFirst [] l).length = l.toFinset.card := by
  have hnd := nodup_dedupFirst l []
  have hmem : ∀ x, x ∈ dedupFirst [] l ↔ x ∈ l := by
    intro x; simpa using mem_dedupFirst l [] x
  have hfin : (dedupFirst [] l).toFinset = l.toFinset := by
    ext x; simp [List.mem_toFinset, hmem]
  rw [← List.toFinset_card_of_nodup hnd, hfin]

/-- The urls of the accumulated pdf dictionary are the accumulator's
urls followed by the first-seen deduplication of the scanned urls. -/
lemma foldl_addPdf_map_url (docs : List Document) : ∀ acc : List PdfEntry,
    (docs.foldl addPdf acc).map PdfEntry.url =
      acc.map PdfEntry.url ++
        dedupFirst (acc.map PdfEntry.url) (docs.filterMap extractPdfUrl) := by
  induction docs with
  | nil => intro acc; simp [dedupFirst]
  | cons d ds ih =>
    intro acc
    rw [List.foldl_cons, List.filterMap_cons]
    cases hE : extractPdfUrl d with
    | none =>
      simp only [addPdf, hE]
      exact ih acc
    | some u =>
      by_cases hmem : u ∈ acc.map PdfEntry.url
      · have hany : acc.any (fun e => e.url = u) = true := by
          rw [List.any_eq_true]
          obtain ⟨e, he, hu⟩ := List.mem_map.1 hmem
          exact ⟨e, he, by simp [hu]⟩
        simp only [addPdf, hE, hany, if_pos]
        rw [ih acc]
        simp only [dedupFirst, if_pos hmem]
      · have hany : acc.any (fun e => e.url = u) = false := by
          rw [List.any_eq_false]
          intro e he
          simp only [decide_eq_true_eq]
          intro hu
          exact hmem (List.mem_map.2 ⟨e, he, hu⟩)
        simp only [addPdf, hE, hany, Bool.false_eq_true, if_false]
        rw [ih (acc ++ [mkPdfEntry u d])]
        have hurl : (mkPdfEntry u d).url = u := rfl
        simp only [List.map_append, List.map_cons, List.map_nil, hurl]
        rw [dedupFirst_congr (ds.filterMap extractPdfUrl)
          (acc.map PdfEntry.url ++ [u]) (u :: acc.map PdfEntry.url)
          (by intro x; simp [List.mem_append, List.mem_cons, or_comm])]
        simp only [dedupFirst, if_neg hmem]
        simp [List.append_assoc]

/-- Claim C5: `get_unique_source_pdfs` returns the scanned urls in
first-seen order (groups scanned text, then images, then tables; items
in order), without duplicates, containing each referenced url exactly
once — so its length is the number of distinct urls. -/
theorem unique_source_pdfs_dedup (r : StoreResults) :
    (get_unique_source_pdfs r).map PdfEntry.url = dedupFirst [] (scanUrls r) ∧
    ((get_unique_source_pdfs r).map PdfEntry.url).Nodup ∧
    (∀ u, u ∈ (get_unique_source_pdfs r).map PdfEntry.url ↔ u ∈ scanUrls r) ∧
    (get_unique_source_pdfs r).length = (scanUrls r).toFinset.card := by
  have h1 : (get_unique_source_pdfs r).map PdfEntry.url =
      dedupFirst [] (scanUrls r) := by
    have h := foldl_addPdf_map_url (r.text ++ r.images ++ r.tables) []
    simpa [get_unique_source_pdfs, scanUrls] using h
  refine ⟨h1, ?_, ?_, ?_⟩
  · rw [h1]; exact nodup_dedupFirst _ _
  · intro u; rw [h1]; simpa using mem_dedupFirst (scanUrls r) [] u
  · have hlen : (get_unique_source_pdfs r).length =
        ((get_unique_source_pdfs r).map PdfEntry.url).length := by simp
    rw [hlen, h1, length_dedupFirst]

/-- Every element of an `enumFrom` mapping comes from an element of
the underlying list. -/
lemma mem_enumFrom {α β : Type} (f : Nat → α → β) :
    ∀ (i : Nat) (l : List α) (x : β),
      x ∈ enumFrom f i l → ∃ n a, a ∈ l ∧ x = f n a := by
  intro i l
  induction l generalizing i with
  | nil => intro x hx; simp [enumFrom] at hx
  | cons a as ih =>
    intro x hx
    simp only [enumFrom, List.mem_cons] at hx
    rcases hx with rfl | hx
    · exact ⟨i, a, List.mem_cons_self _ _, rfl⟩
    · obtain ⟨n, b, hb, hx⟩ := ih (i + 1) x hx
      exact ⟨n, b, List.mem_cons_of_mem _ hb, hx⟩

/-- Claim C9: in the extracted sources, every text source's preview is
its document's content truncated to 200 characters plus an ellipsis,
every table source's preview is its document's content truncated to
300 characters plus an ellipsis, and every image source carries the
full stored description with `analyzed_with_vision` equal to the
generator's vision configuration flag. -/
theorem extract_sources_fields (cfg : GenerationConfig)
    (results : StoreResults) :
    (∀ id p pg, Source.text id p pg ∈ extract_sources cfg results →
      ∃ d ∈ results.text, p = d.page_content.take 200 ++ "...") ∧
    (∀ id ds url pg av,
      Source.image id ds url pg av ∈ extract_sources cfg results →
      av = cfg.use_vision ∧ ∃ d ∈ results.images, ds = d.page_content) ∧
    (∀ id p pg hh, Source.table id p pg hh ∈ extract_sources cfg results →
      ∃ d ∈ results.tables, p = d.page_content.take 300 ++ "...") := by
  refine ⟨?_, ?_, ?_⟩
  · intro id p pg hmem
    simp only [extract_sources, List.mem_append] at hmem
    rcases hmem with (h | h) | h
    · obtain ⟨n, d, hd, heq⟩ := mem_enumFrom _ _ _ _ h
      simp only [Source.text.injEq] at heq
      exact ⟨d, hd, heq.2.1⟩
    · obtain ⟨n, d, hd, heq⟩ := mem_enumFrom _ _ _ _ h
      simp at heq
    · obtain ⟨n, d, hd, heq⟩ := mem_enumFrom _ _ _ _ h
      simp at heq
  · intro id ds url pg av hmem
    simp only [extract_sources, List.mem_append] at hmem
    rcases hmem with (h | h) | h
    · obtain ⟨n, d, hd, heq⟩ := mem_enumFrom _ _ _ _ h
      simp at heq
    · obtain ⟨n, d, hd, heq⟩ := mem_enumFrom _ _ _ _ h
      simp only [Source.image.injEq] at heq
      exact ⟨heq.2.2.2.2, d, hd, heq.2.1⟩
    · obtain ⟨n, d, hd, heq⟩ := mem_enumFrom _ _ _ _ h
      simp at heq
  · intro id p pg hh hmem
    simp only [extract_sources, List.mem_append] at hmem
    rcases hmem with (h | h) | h
    · obtain ⟨n, d, hd, heq⟩ := mem_enumFrom _ _ _ _ h
      simp at heq
    · obtain ⟨n, d, hd, heq⟩ := mem_enumFrom _ _ _ _ h
      simp at heq
    · obtain ⟨n, d, hd, heq⟩ := mem_enumFrom _ _ _ _ h
      simp only [Source.table.injEq] at heq
      exact ⟨d, hd, heq.2.1⟩

/-- Generator configuration used by the generation witnesses. -/
def cfgW : GenerationConfig := { model := "m", vision_model := "v" }

/-- Retrieval results used by the C9 witness. -/
def resultsW : StoreResults := { text := [docT], images := [docI], tables := [] }

/-- Witness for C9: the image source extracted from a concrete result
carries the stored description and the configuration's vision flag. -/
theorem extract_sources_fields_witness :
    true = cfgW.use_vision ∧ ∃ d ∈ resultsW.images, "i" = d.page_content :=
  (extract_sources_fields cfgW resultsW).2.1 "IMAGE-1" "i" "" "N/A" true
    (by decide)

/-! ### Lemmas about context formatting with vision disabled -/

/-- With vision disabled in the configuration, one image's parts are
the stored-description block, with no fetch, for any oracle. -/
lemma imagePartsOne_vision_disabled (cfg : GenerationConfig)
    (o : VisionOracle) (query language : String) (uv : Bool) (i : Nat)
    (d : Document) (h : cfg.use_vision = false) :
    imagePartsOne cfg o query language uv i d =
      ([imageHeader i d,
        "Visual Analysis: " ++ escape_curly_braces d.page_content ++ "\n",
        "URL: " ++ d.metadata.supabase_url.getD "" ++ "\n"], 0) := by
  unfold imagePartsOne
  rw [if_neg]
  rintro ⟨_, _, hv⟩
  simp [h] at hv

/-- With vision disabled, the image loop emits exactly the
stored-description blocks in order and performs zero fetches. -/
lemma imageParts_vision_disabled (cfg : GenerationConfig)
    (o : VisionOracle) (query language : String) (uv : Bool)
    (h : cfg.use_vision = false) : ∀ (i : Nat) (ds : List Document),
    imageParts cfg o query language uv i ds =
      ((enumFrom (fun j d => [imageHeader j d,
        "Visual Analysis: " ++ escape_curly_braces d.page_content ++ "\n",
        "URL: " ++ d.metadata.supabase_url.getD "" ++ "\n"]) i ds).flatten,
       0) := by
  intro i ds
  induction ds generalizing i with
  | nil => simp [imageParts, enumFrom]
  | cons d rest ih =>
    simp only [imageParts, enumFrom, List.flatten_cons]
    rw [imagePartsOne_vision_disabled cfg o query language uv i d h, ih (i + 1)]
    simp

/-- Companion to `mem_enumFrom`: every list element contributes an
image of itself to the enumeration. -/
lemma enumFrom_mem_of_mem {α β : Type} (f : Nat → α → β) :
    ∀ (i : Nat) (l : List α) (a : α), a ∈ l →
      ∃ n, f n a ∈ enumFrom f i l := by
  intro i l
  induction l generalizing i with
  | nil => intro a ha; simp at ha
  | cons b bs ih =>
    intro a ha
    rcases List.mem_cons.1 ha with rfl | ha
    · exact ⟨i, List.mem_cons_self _ _⟩
    · obtain ⟨n, hn⟩ := ih (i + 1) a ha
      exact ⟨n, List.mem_cons_of_mem _ hn⟩

/-- Claim C6: when vision analysis is disabled in the generator
configuration, context formatting performs zero image fetches, yields
the same output for every fetch/vision oracle (so a fetch stub that
raises is never invoked), and the parts list contains the
stored-description block of every image item. -/
theorem vision_disabled_uses_stored (cfg : GenerationConfig)
    (o o' : VisionOracle) (results : StoreResults)
    (query language : String) (uv : Bool)
    (h : cfg.use_vision = false) :
    (format_multimodal_context cfg o results query uv language).2 = 0 ∧
    format_multimodal_context cfg o results query uv language =
      format_multimodal_context cfg o' results query uv language ∧
    ∀ d ∈ results.images,
      ("Visual Analysis: " ++ escape_curly_braces d.page_content ++ "\n") ∈
        (format_context_parts cfg o results query uv language).1 := by
  have hparts : format_context_parts cfg o results query uv language =
      format_context_parts cfg o' results query uv language := by
    unfold format_context_parts
    rw [imageParts_vision_disabled cfg o query language uv h,
      imageParts_vision_disabled cfg o' query language uv h]
  refine ⟨?_, ?_, ?_⟩
  · unfold format_multimodal_context format_context_parts
    by_cases himg : results.images.isEmpty <;>
      simp [himg, imageParts_vision_disabled cfg o query language uv h]
  · unfold format_multimodal_context
    rw [hparts]
  · intro d hd
    have himg : results.images.isEmpty = false := by
      cases hres : results.images with
      | nil => rw [hres] at hd; simp at hd
      | cons a l => simp [hres]
    unfold format_context_parts
    simp only [himg, Bool.false_eq_true, if_false,
      imageParts_vision_disabled cfg o query language uv h]
    rw [List.mem_append, List.mem_append]
    left; right
    rw [List.mem_cons]
    right
    rw [List.mem_flatten]
    obtain ⟨n, hn⟩ := enumFrom_mem_of_mem
      (fun j dd => [imageHeader j dd,
        "Visual Analysis: " ++ escape_curly_braces dd.page_content ++ "\n",
        "URL: " ++ dd.metadata.supabase_url.getD "" ++ "\n"]) 1
      results.images d hd
    exact ⟨_, hn, by simp⟩

/-! ### Stub collaborators used by the generation witnesses -/

/-- A configuration with vision analysis disabled. -/
def cfgNoVision : GenerationConfig :=
  { model := "m", vision_model := "v", use_vision := false }

/-- An oracle whose fetch fails (models a fetch stub that raises). -/
def oracleRaises : VisionOracle :=
  { fetch := fun _ => none, visionLLM := fun _ _ => Except.error "raised" }

/-- An oracle whose fetch and vision call succeed. -/
def oracleOk : VisionOracle :=
  { fetch := fun _ => some "b64", visionLLM := fun _ _ => Except.ok "analysis" }

/-- A language model that answers. -/
def llmOk : LLM := fun _ _ _ => Except.ok "ok-answer"

/-- A language model whose invocation raises. -/
def llmFails : LLM := fun _ _ _ => Except.error "boom"

/-- A `RetrievalResult` with all three groups empty. -/
def emptyResults : StoreResults := {}

/-- A `RetrievalResult` with one text item only. -/
def resultsTextOnly : StoreResults := { text := [docT] }

/-- An image document with a retrievable url. -/
def docImg : Document :=
  { page_content := "desc", metadata := { supabase_url := some "http://img" } }

/-- Witness for C6: with vision disabled, formatting one image under a
raising fetch stub performs zero fetches and coincides with formatting
under a succeeding oracle, and the stored description is emitted. -/
theorem vision_disabled_uses_stored_witness :
    (format_multimodal_context cfgNoVision oracleRaises
      { images := [docImg] } "q" true "Indonesian").2 = 0 ∧
    format_multimodal_context cfgNoVision oracleRaises
      { images := [docImg] } "q" true "Indonesian" =
      format_multimodal_context cfgNoVision oracleOk
        { images := [docImg] } "q" true "Indonesian" ∧
    ∀ d ∈ ({ images := [docImg] } : StoreResults).images,
      ("Visual Analysis: " ++ escape_curly_braces d.page_content ++ "\n") ∈
        (format_context_parts cfgNoVision oracleRaises
          { images := [docImg] } "q" true "Indonesian").1 :=
  vision_disabled_uses_stored cfgNoVision oracleRaises oracleOk
    { images := [docImg] } "q" "Indonesian" true rfl

/-- Counterexample for C2: with all three groups empty and the
requested language `"English"`, `generate_answer` returns the fixed
Indonesian message — the same string as for language `"Indonesian"` —
so the "not found" message is not in the requested language. -/
theorem empty_results_message_not_localized :
    (generate_answer cfgW oracleRaises llmOk "q" emptyResults "simple"
      "English" true).1.answer =
      "Maaf, saya tidak menemukan informasi yang relevan untuk menjawab pertanyaan Anda." ∧
    (generate_answer cfgW oracleRaises llmOk "q" emptyResults "simple"
      "English" true).1.answer =
      (generate_answer cfgW oracleRaises llmOk "q" emptyResults "simple"
        "Indonesian" true).1.answer :=
  ⟨rfl, rfl⟩

/-- Claim C2 (amended): for every generation mode, with all three
groups empty, `generate_answer` returns `has_context = false`, a fixed
per-mode Indonesian "not found" message regardless of the requested
language, and performs zero language-model invocations. -/
theorem generate_answer_empty_results (cfg : GenerationConfig)
    (o : VisionOracle) (llm : LLM) (query language : String)
    (include_sources : Bool) (method : String)
    (hm : method = "simple" ∨ method = "citations" ∨ method = "structured") :
    (generate_answer cfg o llm query emptyResults method language
      include_sources).1.has_context = false ∧
    (generate_answer cfg o llm query emptyResults method language
      include_sources).2.llm = 0 ∧
    (generate_answer cfg o llm query emptyResults method language
      include_sources).1.answer =
      (if method = "simple" then
        "Maaf, saya tidak menemukan informasi yang relevan untuk menjawab pertanyaan Anda."
       else if method = "citations" then
        "Maaf, saya tidak menemukan informasi yang relevan."
       else "Tidak ada informasi yang ditemukan.") := by
  rcases hm with rfl | rfl | rfl <;> exact ⟨rfl, rfl, rfl⟩

/-- Witness for C2 (amended): concrete empty-result call in English,
simple mode. -/
theorem generate_answer_empty_results_witness :
    (generate_answer cfgW oracleRaises llmOk "q" emptyResults "simple"
      "English" true).1.has_context = false ∧
    (generate_answer cfgW oracleRaises llmOk "q" emptyResults "simple"
      "English" true).2.llm = 0 ∧
    (generate_answer cfgW oracleRaises llmOk "q" emptyResults "simple"
      "English" true).1.answer =
      "Maaf, saya tidak menemukan informasi yang relevan untuk menjawab pertanyaan Anda." := by
  have h := generate_answer_empty_results cfgW oracleRaises llmOk "q"
    "English" true "simple" (Or.inl rfl)
  exact ⟨h.1, h.2.1, h.2.2⟩

/-- Counterexample for C3: `generate_answer` with the unknown mode
`"bogus"` does not propagate an error to the caller — it returns a
degraded result dictionary (the blanket handler catches the raised
`ValueError`). -/
theorem unknown_generation_mode_returns :
    generate_answer cfgW oracleRaises llmOk "q" emptyResults "bogus"
      "Indonesian" true =
      ({ answer := "Maaf, terjadi error: Unknown method: bogus",
         has_context := false,
         error := some "Unknown method: bogus" },
       { llm := 0, fetch := 0 }) :=
  rfl

/-- Claim C3 (amended): an unknown retrieval strategy name makes
`retrieve_multimodal` raise a configuration error to its caller; an
unknown generation mode makes the dispatch inside `generate_answer`
raise the same kind of error, but `generate_answer`'s blanket handler
converts it into a returned degraded result (error text in the answer,
`has_context = false`) instead of propagating it. -/
theorem unknown_method_config_error (query : String) (s : SearchOutcome)
    (k : Nat) (tw iw tbw : ℚ) (cfg : GenerationConfig) (o : VisionOracle)
    (llm : LLM) (results : StoreResults) (language : String) (inc : Bool)
    (m : String)
    (hr : m ∉ (["all", "hybrid", "mmr", "text_only", "image_only",
      "table_only"] : List String))
    (hg : m ∉ (["simple", "citations", "structured"] : List String)) :
    retrieve_multimodal query m s k tw iw tbw =
      Except.error ("Unknown method: " ++ m) ∧
    generate_answer_dispatch cfg o llm query results m language inc =
      Except.error ("Unknown method: " ++ m) ∧
    generate_answer cfg o llm query results m language inc =
      ({ answer := "Maaf, terjadi error: " ++ ("Unknown method: " ++ m),
         has_context := false,
         error := some ("Unknown method: " ++ m) },
       { llm := 0, fetch := 0 }) := by
  simp only [List.mem_cons, List.not_mem_nil, or_false, not_or] at hr hg
  obtain ⟨ha, hh, hm3, ht, hi2, hb⟩ := hr
  obtain ⟨hs1, hs2, hs3⟩ := hg
  have hdisp : generate_answer_dispatch cfg o llm query results m language
      inc = Except.error ("Unknown method: " ++ m) := by
    unfold generate_answer_dispatch
    rw [if_neg hs1, if_neg hs2, if_neg hs3]
  refine ⟨?_, hdisp, ?_⟩
  · unfold retrieve_multimodal
    rw [if_neg ha, if_neg hh, if_neg hm3, if_neg ht, if_neg hi2, if_neg hb]
  · unfold generate_answer
    rw [hdisp]

/-- Witness for C3 (amended): the unknown name `"bogus"`. -/
theorem unknown_method_config_error_witness :
    retrieve_multimodal "q" "bogus" {} 5 1 1 1 =
      Except.error ("Unknown method: " ++ "bogus") ∧
    generate_answer_dispatch cfgW oracleRaises llmOk "q" emptyResults
      "bogus" "Indonesian" true =
      Except.error ("Unknown method: " ++ "bogus") ∧
    generate_answer cfgW oracleRaises llmOk "q" emptyResults "bogus"
      "Indonesian" true =
      ({ answer := "Maaf, terjadi error: " ++ ("Unknown method: " ++ "bogus"),
         has_context := false,
         error := some ("Unknown method: " ++ "bogus") },
       { llm := 0, fetch := 0 }) :=
  unknown_method_config_error "q" {} 5 1 1 1 cfgW oracleRaises llmOk
    emptyResults "Indonesian" true "bogus" (by decide) (by decide)

/-- Claim C7: for every generation mode, when a non-empty context was
assembled and the language-model invocation raises with message `e`,
the call returns (rather than raises) a result whose `has_context`
stays `true`, whose `error` field records `e`, and whose answer embeds
`e`. -/
theorem llm_failure_embedded_in_answer (cfg : GenerationConfig)
    (o : VisionOracle) (query : String) (results : StoreResults)
    (language : String) (inc : Bool) (e : String) (method : String)
    (hm : method = "simple" ∨ method = "citations" ∨ method = "structured")
    (hctx : pyStrip (format_multimodal_context cfg o results query
      cfg.use_vision language).1 ≠ "")
    (llm : LLM) (hllm : ∀ sys c q, llm sys c q = Except.error e) :
    (generate_answer cfg o llm query results method language
      inc).1.has_context = true ∧
    (generate_answer cfg o llm query results method language
      inc).1.error = some e ∧
    (generate_answer cfg o llm query results method language
      inc).1.answer =
      (if method = "simple" then
        "Maaf, terjadi error saat generate jawaban: " ++ e
       else "Error: " ++ e) := by
  rcases hm with rfl | rfl | rfl <;>
    simp [generate_answer, generate_answer_dispatch, generate_simple,
      generate_with_citations, generate_structured, hllm, hctx]

/-- Witness for C7: one text item, a failing language model, simple
mode — the error message is embedded and `has_context` is `true`. -/
theorem llm_failure_embedded_in_answer_witness :
    (generate_answer cfgW oracleRaises llmFails "q" resultsTextOnly
      "simple" "Indonesian" true).1.has_context = true ∧
    (generate_answer cfgW oracleRaises llmFails "q" resultsTextOnly
      "simple" "Indonesian" true).1.error = some "boom" ∧
    (generate_answer cfgW oracleRaises llmFails "q" resultsTextOnly
      "simple" "Indonesian" true).1.answer =
      "Maaf, terjadi error saat generate jawaban: " ++ "boom" := by
  have h := llm_failure_embedded_in_answer cfgW oracleRaises "q"
    resultsTextOnly "Indonesian" true "boom" "simple" (Or.inl rfl)
    (by decide) llmFails (fun _ _ _ => rfl)
  exact ⟨h.1, h.2.1, h.2.2⟩
